import Mathlib

/-!
Shallow embedding of the event classification and playback-admission core of
codex-peon (source: codex-peon.py).  Timestamps and durations are real-valued
in the source; the decision core uses them only through subtraction, ordering
comparisons and `max`, so they are modelled as integers (any linearly ordered
ring gives the same decision logic).  The external collaborators (sound
picker, player backend, OS pid liveness probe) are abstract parameters.  Python dictionaries appear as
insertion-ordered association lists, and the loosely-typed config/state fields
are modelled with the types the source coerces them to (an `Option` marks a
field whose absence or non-mapping value the source treats specially).
-/

namespace CodexPeon

/-- `lst[-n:]` in Python: the last `n` elements of a list. -/
def takeLast (n : Nat) (l : List α) : List α :=
  l.drop (l.length - n)

/-- Python dict assignment `m[k] = v` on an insertion-ordered association
list: replace the value in place if the key is present, else append. -/
def updateAssoc (k : String) (v : α) : List (String × α) → List (String × α)
  | [] => [(k, v)]
  | (k1, v1) :: rest =>
    if k1 = k then (k, v) :: rest else (k1, v1) :: updateAssoc k v rest

/-- Python `needle in haystack` substring test on lists of characters. -/
def isSubstr (needle : List Char) : List Char → Bool
  | [] => needle.isEmpty
  | c :: rest => needle.isPrefixOf (c :: rest) || isSubstr needle rest

/-- `str.lower()` applied characterwise. -/
def lowerChars (s : List Char) : List Char := s.map Char.toLower

/-- `str.strip()`: drop whitespace from both ends. -/
def pyStrip (s : String) : String :=
  ⟨(((s.data.dropWhile Char.isWhitespace).reverse.dropWhile Char.isWhitespace).reverse)⟩

/-- `str.lower()` on a whole string. -/
def pyLower (s : String) : String := ⟨lowerChars s.data⟩

/-- Source constant CATEGORY_PRIORITY. -/
def CATEGORY_PRIORITY : List String := ["resource_limit", "permission", "error"]

/-- Source constant CATEGORY_FALLBACKS, as a total function via lookup with
default `[]` (matching `CATEGORY_FALLBACKS.get(category, [])`). -/
def CATEGORY_FALLBACKS (category : String) : List String :=
  (List.lookup category
    [("greeting", ["acknowledge", "complete"]),
     ("acknowledge", ["complete"]),
     ("complete", ["acknowledge"]),
     ("permission", ["acknowledge", "complete"]),
     ("error", ["acknowledge", "complete"]),
     ("resource_limit", ["acknowledge", "complete"]),
     ("annoyed", ["acknowledge", "complete"])]).getD []

/-- Source constant PREVIEW_CATEGORIES: the seven fixed categories. -/
def PREVIEW_CATEGORIES : List String :=
  ["greeting", "acknowledge", "complete", "permission", "error", "resource_limit", "annoyed"]

/-- Source constant GREETING_MODES. -/
def GREETING_MODES : List String := ["launch", "turn_start", "both", "off"]

/-- The configuration fields read by the decision core.  `categories = none`
models an absent or non-mapping `categories` field (both make
`category_enabled` ignore it); likewise for `cooldowns_seconds`.  Keyword
terms are lists of characters; non-string terms, which the source filters out
with `isinstance`, are excluded by the type. -/
structure Config where
  greeting_mode : String
  categories : Option (List (String × Bool))
  annoyed_threshold : Int
  annoyed_window_seconds : ℤ
  session_start_idle_seconds : ℤ
  prevent_overlap : Bool
  cooldowns_seconds : Option (List (String × ℤ))
  keywords : List (String × List (List Char))

/-- The persistent session state (source constant DEFAULT_STATE gives the
field layout).  Non-numeric stored values, which the source coerces or
discards, are excluded by the types. -/
structure State where
  last_played : List (String × String)
  last_category_ts : List (String × ℤ)
  seen_threads : List String
  turn_timestamps : List (String × List ℤ)
  last_event_ts : ℤ
  playback_pid : Option Int

/-- Source constant DEFAULT_STATE. -/
def DEFAULT_STATE : State :=
  { last_played := [], last_category_ts := [], seen_threads := [],
    turn_timestamps := [], last_event_ts := 0, playback_pid := none }

/-- The inner term loop of `infer_category`: does some non-empty keyword term
configured for `category` occur (lower-cased) in the already-lowered text? -/
def keyword_match (cfg : Config) (text : List Char) (category : String) : Bool :=
  match List.lookup category cfg.keywords with
  | some terms => terms.any (fun term => !term.isEmpty && isSubstr (lowerChars term) text)
  | none => false

/-- Source `infer_category`: lower-case the text, scan CATEGORY_PRIORITY, and
return the first category one of whose non-empty keyword terms is a
case-insensitive substring of the text, else "acknowledge". -/
def infer_category (message : List Char) (cfg : Config) : String :=
  let text := lowerChars message
  match CATEGORY_PRIORITY.find? (keyword_match cfg text) with
  | some category => category
  | none => "acknowledge"

/-- Source `category_enabled`: with no usable `categories` mapping every
category is enabled; otherwise `bool(cats.get(category, True))`. -/
def category_enabled (cfg : Config) (category : String) : Bool :=
  match cfg.categories with
  | none => true
  | some cats => (List.lookup category cats).getD true

/-- The `for candidate in [category, *fallbacks]` loop body of
`resolve_enabled_category`: first enabled candidate, else `""`. -/
def first_enabled (cfg : Config) : List String → String
  | [] => ""
  | c :: rest => if category_enabled cfg c then c else first_enabled cfg rest

/-- Source `resolve_enabled_category`. -/
def resolve_enabled_category (cfg : Config) (category : String) : String :=
  first_enabled cfg (category :: CATEGORY_FALLBACKS category)

/-- Source `_greeting_mode`: normalised mode, falling back to "launch". -/
def greeting_mode_of (cfg : Config) : String :=
  let mode := pyLower (pyStrip cfg.greeting_mode)
  if GREETING_MODES.contains mode then mode else "launch"

/-- Source `_thread_key`: the stripped `thread-id` when it is a non-blank
string, else the sentinel `"__default__"`. -/
structure Payload where
  thread_id : Option String
  message : Option (List Char)

def thread_key_of (payload : Payload) : String :=
  match payload.thread_id with
  | some raw => if pyStrip raw ≠ "" then pyStrip raw else "__default__"
  | none => "__default__"

/-- Source `_is_pid_running`, with the OS probe `os.kill(pid, 0)` abstracted
as `running`.  A missing pid (or one the source fails to parse as an int) and
a non-positive pid are never running. -/
def is_pid_running (running : Int → Bool) : Option Int → Bool
  | none => false
  | some pid => if pid ≤ 0 then false else running pid

/-- Source `_cooldown_seconds_for`: the category entry, else the `default`
entry, else 0, clamped to be non-negative. -/
def cooldown_seconds_for (cfg : Config) (category : String) : ℤ :=
  match cfg.cooldowns_seconds with
  | none => 0
  | some cooldowns =>
    max 0 ((List.lookup category cooldowns).getD ((List.lookup "default" cooldowns).getD 0))

/-- Source `_is_on_category_cooldown`. -/
def is_on_category_cooldown (cfg : Config) (state : State) (category : String)
    (now_ts : ℤ) : Bool :=
  let cooldown_seconds := cooldown_seconds_for cfg category
  if cooldown_seconds ≤ 0 then false
  else
    let last_ts := (List.lookup category state.last_category_ts).getD 0
    if last_ts ≤ 0 then false
    else decide (now_ts - last_ts < cooldown_seconds)

/-- Source `_overlap_blocked`: returns the (possibly pid-cleared) state and
whether a presumed-alive previous playback blocks admission. -/
def overlap_blocked (running : Int → Bool) (cfg : Config) (state : State) :
    State × Bool :=
  if !cfg.prevent_overlap then (state, false)
  else if is_pid_running running state.playback_pid then (state, true)
  else ({ state with playback_pid := none }, false)

/-- Source `maybe_play_category`.  `pick` abstracts `pick_sound`, whose only
state mutation is to `last_played`; it returns the new `last_played` map, the
selected sound file (if any) and the category actually used.  `play`
abstracts `play_sound`, whose result is the backend process id or nothing
when no backend exists. -/
def maybe_play_category
    (pick : Config → State → String → List (String × String) × Option String × String)
    (play : Option Int) (running : Int → Bool)
    (cfg : Config) (state : State) (category : String) (now_ts : ℤ) :
    State × Bool :=
  let resolved_category := resolve_enabled_category cfg category
  if resolved_category = "" then (state, false)
  else if is_on_category_cooldown cfg state resolved_category now_ts then (state, false)
  else
    let ob := overlap_blocked running cfg state
    if ob.2 then (ob.1, false)
    else
      let pr := pick cfg ob.1 resolved_category
      let state2 := { ob.1 with last_played := pr.1 }
      match pr.2.1 with
      | none => (state2, false)
      | some _ =>
        ({ state2 with
            last_category_ts := updateAssoc pr.2.2 now_ts state2.last_category_ts,
            playback_pid := play }, true)

/-- Source `_track_rapid_turns`: drop prior timestamps older than the
(clamped) window, append now, store the last 32, return the kept count. -/
def track_rapid_turns (state : State) (thread_key : String) (now_ts : ℤ)
    (window_seconds : ℤ) : State × Nat :=
  let window := max 1 window_seconds
  let existing := (List.lookup thread_key state.turn_timestamps).getD []
  let kept := (existing.filter (fun t => decide (now_ts - t ≤ window))) ++ [now_ts]
  ({ state with turn_timestamps := updateAssoc thread_key (takeLast 32 kept) state.turn_timestamps },
   kept.length)

/-- Source `_should_play_greeting`: record the thread key and the event
timestamp, and report whether the thread is new or the idle gap holds. -/
def should_play_greeting (state : State) (thread_key : String) (now_ts : ℤ)
    (idle_seconds : ℤ) : State × Bool :=
  let known_thread := state.seen_threads.contains thread_key
  let seen1 := if known_thread then state.seen_threads
               else takeLast 256 (state.seen_threads ++ [thread_key])
  let state1 := { state with seen_threads := seen1, last_event_ts := now_ts }
  let idle_window := max 1 idle_seconds
  let idle_gap := if state.last_event_ts > 0
                  then decide (now_ts - state.last_event_ts ≥ idle_window) else true
  (state1, !known_thread || idle_gap)

/-- The category-selection block of `handle_hook_payload` (lines 544-557):
greeting override on session start, direct use of the priority categories,
the annoyed escalation, else the classified category. -/
def preferred_category (cfg : Config) (is_session_start should_greet_on_turn_start : Bool)
    (inferred_category : String) (rapid_count : Nat) : String :=
  if is_session_start && should_greet_on_turn_start then "greeting"
  else if inferred_category = "permission" || inferred_category = "error" ||
      inferred_category = "resource_limit" then inferred_category
  else if decide ((rapid_count : Int) ≥ max 2 cfg.annoyed_threshold) &&
      category_enabled cfg "annoyed" then "annoyed"
  else inferred_category

/-- The state-transforming part of `handle_hook_payload` after the
type/enabled/paused gates: run the trackers, select the category, and attempt
playback.  The returned Bool is `maybe_play_category`'s result (discarded by
the source's entry point, exposed here to observe playback attempts). -/
def handle_event
    (pick : Config → State → String → List (String × String) × Option String × String)
    (play : Option Int) (running : Int → Bool)
    (cfg : Config) (state : State) (payload : Payload) (now_ts : ℤ) :
    State × Bool :=
  let thread_key := thread_key_of payload
  let tr := track_rapid_turns state thread_key now_ts (max 1 cfg.annoyed_window_seconds)
  let gr := should_play_greeting tr.1 thread_key now_ts (max 1 cfg.session_start_idle_seconds)
  let mode := greeting_mode_of cfg
  let should_greet := mode = "turn_start" || mode = "both"
  let inferred := infer_category (payload.message.getD []) cfg
  let pref := preferred_category cfg gr.2 should_greet inferred tr.2
  maybe_play_category pick play running cfg gr.1 pref now_ts

/-- A sound picker for concrete scenarios: always returns a sound file for
the requested category and leaves `last_played` unchanged. -/
def pick_fixed : Config → State → String →
    List (String × String) × Option String × String :=
  fun _ s c => (s.last_played, some "s.wav", c)

/-- A baseline configuration for concrete scenarios, mirroring the source
defaults for the fields the decision core reads (`categories := none` behaves
as all-enabled, keyword lists empty; scenarios override single fields). -/
def cfg_base : Config :=
  { greeting_mode := "launch", categories := none, annoyed_threshold := 3,
    annoyed_window_seconds := 10, session_start_idle_seconds := 120,
    prevent_overlap := true, cooldowns_seconds := none, keywords := [] }

/-- The boundedness invariant claimed for the persistent state: the seen
threads list caps at 256 entries, every per-thread timestamp list at 32. -/
def StateBounded (s : State) : Prop :=
  s.seen_threads.length ≤ 256 ∧
  ∀ k l, List.lookup k s.turn_timestamps = some l → l.length ≤ 32

/-! Helper lemmas about the embedding's list primitives. -/

theorem lookup_updateAssoc_self (k : String) (v : α) (m : List (String × α)) :
    List.lookup k (updateAssoc k v m) = some v := by
  induction m with
  | nil => simp [updateAssoc, List.lookup]
  | cons p rest ih =>
    obtain ⟨k1, v1⟩ := p
    by_cases h : k1 = k
    · simp [updateAssoc, h, List.lookup]
    · have hne : (k == k1) = false := by
        simp [beq_eq_false_iff_ne]
        exact fun e => h e.symm
      simp [updateAssoc, h, List.lookup, hne, ih]

theorem lookup_updateAssoc_ne (hkk : k1 ≠ k) (v : α) (m : List (String × α)) :
    List.lookup k1 (updateAssoc k v m) = List.lookup k1 m := by
  induction m with
  | nil =>
    have hne : (k1 == k) = false := by simp [beq_eq_false_iff_ne, hkk]
    simp [updateAssoc, List.lookup, hne]
  | cons p rest ih =>
    obtain ⟨k2, v2⟩ := p
    by_cases h : k2 = k
    · subst h
      have hne : (k1 == k2) = false := by simp [beq_eq_false_iff_ne, hkk]
      simp [updateAssoc, List.lookup, hne]
    · by_cases h2 : k1 = k2
      · subst h2
        simp [updateAssoc, h, List.lookup]
      · have hne : (k1 == k2) = false := by simp [beq_eq_false_iff_ne, h2]
        simp [updateAssoc, h, List.lookup, hne, ih]

theorem takeLast_length_le (n : Nat) (l : List α) : (takeLast n l).length ≤ n := by
  simp [takeLast]
  omega

theorem takeLast_suffix (n : Nat) (l : List α) : takeLast n l <:+ l :=
  List.drop_suffix _ _

theorem mem_takeLast_append (h : 1 ≤ n) (a : α) (l : List α) :
    a ∈ takeLast n (l ++ [a]) := by
  unfold takeLast
  rw [List.drop_append_eq_append_drop]
  have hlen : (l ++ [a]).length - n ≤ l.length := by
    simp [List.length_append]
    omega
  have : (l ++ [a]).length - n - l.length = 0 := by omega
  rw [this]
  simp

theorem first_enabled_eq_find (cfg : Config) (l : List String) :
    first_enabled cfg l = ((l.find? (category_enabled cfg)).getD "") := by
  induction l with
  | nil => rfl
  | cons c rest ih =>
    by_cases h : category_enabled cfg c
    · simp [first_enabled, h, List.find?_cons_of_pos _ h]
    · have hb : category_enabled cfg c = false := by
        simpa using h
      simp [first_enabled, hb, List.find?_cons_of_neg, ih]

theorem isEmpty_lowerChars (t : List Char) : (lowerChars t).isEmpty = t.isEmpty := by
  cases t <;> simp [lowerChars]

/-- `isSubstr` is exactly the sublist-infix relation, i.e. Python `in`. -/
theorem isSubstr_iff_infix (needle haystack : List Char) :
    isSubstr needle haystack = true ↔ needle <:+: haystack := by
  induction haystack with
  | nil =>
    simp [isSubstr, List.isEmpty_iff]
  | cons c rest ih =>
    simp only [isSubstr, Bool.or_eq_true, ih, List.infix_cons_iff]
    constructor
    · rintro (h | h)
      · exact Or.inl (List.isPrefixOf_iff_prefix.mp h)
      · exact Or.inr h
    · rintro (h | h)
      · exact Or.inl (List.isPrefixOf_iff_prefix.mpr h)
      · exact Or.inr h

theorem keyword_match_empty_text (cfg : Config) (c : String) :
    keyword_match cfg [] c = false := by
  unfold keyword_match
  cases h : List.lookup c cfg.keywords with
  | none => rfl
  | some terms =>
    simp only [List.any_eq_false]
    intro term _
    cases ht : term.isEmpty
    · simp [isSubstr, isEmpty_lowerChars, ht]
    · simp [ht]

/-- `keyword_match` depends on the keyword terms only through their
lower-cased forms (term emptiness is preserved by lower-casing). -/
theorem keyword_match_lower_congr (cfg1 cfg2 : Config) (text : List Char) (c : String)
    (h : (List.lookup c cfg1.keywords).map (List.map lowerChars) =
         (List.lookup c cfg2.keywords).map (List.map lowerChars)) :
    keyword_match cfg1 text c = keyword_match cfg2 text c := by
  have hany : ∀ ts : List (List Char),
      ts.any (fun term => !term.isEmpty && isSubstr (lowerChars term) text) =
        (ts.map lowerChars).any (fun l => !l.isEmpty && isSubstr l text) := by
    intro ts
    induction ts with
    | nil => rfl
    | cons t rest ih => simp [ih, isEmpty_lowerChars]
  unfold keyword_match
  cases h1 : List.lookup c cfg1.keywords with
  | none =>
    cases h2 : List.lookup c cfg2.keywords with
    | none => rfl
    | some ts2 => simp [h1, h2] at h
  | some ts1 =>
    cases h2 : List.lookup c cfg2.keywords with
    | none => simp [h1, h2] at h
    | some ts2 =>
      simp only [h1, h2, Option.map_some] at h
      show (ts1.any fun term => !term.isEmpty && isSubstr (lowerChars term) text) =
           (ts2.any fun term => !term.isEmpty && isSubstr (lowerChars term) text)
      rw [hany ts1, hany ts2]
      rw [Option.some_inj.mp h]

/-- The admission policy only touches `last_played`, `last_category_ts` and
`playback_pid`; the bounded collections pass through unchanged. -/
theorem maybe_play_preserves_bounded_fields
    (pick : Config → State → String → List (String × String) × Option String × String)
    (play : Option Int) (running : Int → Bool)
    (cfg : Config) (s : State) (c : String) (now : ℤ) :
    (maybe_play_category pick play running cfg s c now).1.seen_threads = s.seen_threads ∧
    (maybe_play_category pick play running cfg s c now).1.turn_timestamps =
      s.turn_timestamps := by
  refine ⟨?_, ?_⟩ <;>
    (simp only [maybe_play_category, overlap_blocked]
     split_ifs <;> (try rfl) <;> (split <;> rfl))

theorem should_play_greeting_turn_timestamps (s : State) (key : String) (now idle : ℤ) :
    (should_play_greeting s key now idle).1.turn_timestamps = s.turn_timestamps := rfl

theorem track_rapid_turns_seen_threads (s : State) (key : String) (now w : ℤ) :
    (track_rapid_turns s key now w).1.seen_threads = s.seen_threads := rfl

theorem track_rapid_turns_bounded (s : State) (key : String) (now w : ℤ)
    (h : ∀ k l, List.lookup k s.turn_timestamps = some l → l.length ≤ 32) :
    ∀ k l, List.lookup k (track_rapid_turns s key now w).1.turn_timestamps = some l →
      l.length ≤ 32 := by
  intro k l hl
  by_cases hk : k = key
  · subst hk
    simp only [track_rapid_turns] at hl
    rw [lookup_updateAssoc_self] at hl
    cases hl
    exact takeLast_length_le _ _
  · simp only [track_rapid_turns] at hl
    rw [lookup_updateAssoc_ne hk] at hl
    exact h k l hl

theorem should_play_greeting_seen_bounded (s : State) (key : String) (now idle : ℤ)
    (h : s.seen_threads.length ≤ 256) :
    (should_play_greeting s key now idle).1.seen_threads.length ≤ 256 := by
  simp only [should_play_greeting]
  by_cases hk : key ∈ s.seen_threads
  · simpa [hk] using h
  · simp [hk]
    exact takeLast_length_le 256 (s.seen_threads ++ [key])

/-- One event preserves the boundedness invariant. -/
theorem handle_event_bounded
    (pick : Config → State → String → List (String × String) × Option String × String)
    (play : Option Int) (running : Int → Bool)
    (cfg : Config) (payload : Payload) (now : ℤ) (s : State)
    (hs : StateBounded s) :
    StateBounded (handle_event pick play running cfg s payload now).1 := by
  obtain ⟨h1, h2⟩ := hs
  simp only [handle_event]
  constructor
  · rw [(maybe_play_preserves_bounded_fields _ _ _ _ _ _ _).1]
    exact should_play_greeting_seen_bounded _ _ _ _ h1
  · intro k l hl
    rw [(maybe_play_preserves_bounded_fields _ _ _ _ _ _ _).2,
        should_play_greeting_turn_timestamps] at hl
    exact track_rapid_turns_bounded _ _ _ _ h2 k l hl

theorem default_state_bounded : StateBounded DEFAULT_STATE := by
  constructor
  · simp [DEFAULT_STATE]
  · intro k l hl
    simp [DEFAULT_STATE, List.lookup] at hl

/-! Claim theorems. -/

/-- C1: the rapid-turn tracker keeps exactly the prior timestamps `t` with
`now - t` within the window (clamped to at least 1), appends `now`, stores
the last 32 entries of that list under the thread key, and returns the count
of retained timestamps inclusive of `now` (the count is taken before the
32-entry truncation, as in the source). -/
theorem rapid_turn_tracker_spec (state : State) (key : String) (now window : ℤ) :
    List.lookup key (track_rapid_turns state key now window).1.turn_timestamps =
      some (takeLast 32
        ((((List.lookup key state.turn_timestamps).getD []).filter
            (fun t => decide (now - t ≤ max 1 window))) ++ [now])) ∧
    (takeLast 32
        ((((List.lookup key state.turn_timestamps).getD []).filter
            (fun t => decide (now - t ≤ max 1 window))) ++ [now])).length ≤ 32 ∧
    (track_rapid_turns state key now window).2 =
      (((List.lookup key state.turn_timestamps).getD []).filter
          (fun t => decide (now - t ≤ max 1 window))).length + 1 := by
  refine ⟨?_, ?_, ?_⟩
  · simp only [track_rapid_turns]
    exact lookup_updateAssoc_self _ _ _
  · exact takeLast_length_le _ _
  · simp [track_rapid_turns]

/-- C2: a classified category in {permission, error, resource_limit}, not
overridden to greeting by session start, is passed to the admission policy
unchanged — never replaced by "annoyed", whatever the rapid-turn count,
threshold and annoyed switch. -/
theorem priority_bypasses_annoyed (cfg : Config)
    (is_session_start should_greet : Bool) (inferred : String) (rapid : Nat)
    (hcat : inferred = "permission" ∨ inferred = "error" ∨ inferred = "resource_limit")
    (hover : (is_session_start && should_greet) = false) :
    preferred_category cfg is_session_start should_greet inferred rapid = inferred ∧
    preferred_category cfg is_session_start should_greet inferred rapid ≠ "annoyed" := by
  have heq : preferred_category cfg is_session_start should_greet inferred rapid = inferred := by
    rcases hcat with h | h | h <;> simp [preferred_category, hover, h]
  refine ⟨heq, ?_⟩
  rw [heq]
  rcases hcat with h | h | h <;> simp [h]

theorem priority_bypasses_annoyed_witness :
    preferred_category
      { cfg_base with annoyed_threshold := 2, categories := some [("annoyed", true)] }
      false false "permission" 10 = "permission" ∧
    preferred_category
      { cfg_base with annoyed_threshold := 2, categories := some [("annoyed", true)] }
      false false "permission" 10 ≠ "annoyed" :=
  priority_bypasses_annoyed _ false false "permission" 10 (Or.inl rfl) (by decide)

/-- C10: a category absent from the config's category switches (or with the
whole `categories` field absent or not a mapping) is treated as enabled, so
fallback resolution returns it unchanged. -/
theorem unknown_category_enabled_spec :
    (∀ (cfg : Config) (category : String), cfg.categories = none →
      category_enabled cfg category = true ∧
      resolve_enabled_category cfg category = category) ∧
    (∀ (cfg : Config) (category : String) (cats : List (String × Bool)),
      cfg.categories = some cats → List.lookup category cats = none →
      category_enabled cfg category = true ∧
      resolve_enabled_category cfg category = category) := by
  constructor
  · intro cfg category h
    have he : category_enabled cfg category = true := by
      simp [category_enabled, h]
    exact ⟨he, by simp [resolve_enabled_category, first_enabled, he]⟩
  · intro cfg category cats h hl
    have he : category_enabled cfg category = true := by
      simp [category_enabled, h, hl]
    exact ⟨he, by simp [resolve_enabled_category, first_enabled, he]⟩

theorem unknown_category_enabled_witness :
    (category_enabled cfg_base "mystery" = true ∧
     resolve_enabled_category cfg_base "mystery" = "mystery") ∧
    (category_enabled { cfg_base with categories := some [("greeting", false)] } "mystery" = true ∧
     resolve_enabled_category { cfg_base with categories := some [("greeting", false)] } "mystery" = "mystery") :=
  ⟨unknown_category_enabled_spec.1 cfg_base "mystery" rfl,
   unknown_category_enabled_spec.2 { cfg_base with categories := some [("greeting", false)] }
     "mystery" [("greeting", false)] rfl (by decide)⟩

/-- C3: the cooldown gate aborts exactly when the configured cooldown for the
category is positive, the category's last-played timestamp is positive, and
`now` minus that timestamp is strictly below the cooldown; concretely, with
`cooldowns_seconds.acknowledge = 999`, two back-to-back acknowledge events
yield exactly one playback attempt. -/
theorem cooldown_gate_spec :
    (∀ (cfg : Config) (state : State) (category : String) (now : ℤ),
      is_on_category_cooldown cfg state category now = true ↔
        (0 < cooldown_seconds_for cfg category ∧
         0 < (List.lookup category state.last_category_ts).getD 0 ∧
         now - (List.lookup category state.last_category_ts).getD 0 <
           cooldown_seconds_for cfg category)) ∧
    ((handle_event pick_fixed (some 7) (fun _ => false)
        { cfg_base with cooldowns_seconds := some [("acknowledge", 999)] }
        DEFAULT_STATE ⟨none, none⟩ 10).2 = true ∧
     (handle_event pick_fixed (some 7) (fun _ => false)
        { cfg_base with cooldowns_seconds := some [("acknowledge", 999)] }
        (handle_event pick_fixed (some 7) (fun _ => false)
          { cfg_base with cooldowns_seconds := some [("acknowledge", 999)] }
          DEFAULT_STATE ⟨none, none⟩ 10).1
        ⟨none, none⟩ 11).2 = false) := by
  constructor
  · intro cfg state category now
    simp only [is_on_category_cooldown]
    split_ifs with h1 h2
    · simp
      intro hpos
      omega
    · simp
      intro hpos
      omega
    · simp
      constructor
      · intro hlt
        exact ⟨by omega, by omega, hlt⟩
      · exact fun h => h.2.2
  · exact ⟨by decide, by decide⟩

/-- C4: category resolution walks `[category, ...fallbackChain(category)]`
and returns the first enabled element; when none is enabled the admission
policy aborts with no playback and no state change; in particular, with
greeting and acknowledge disabled and complete enabled, an
acknowledge-classified event resolves to complete. -/
theorem category_resolution_spec :
    (∀ (cfg : Config) (category : String),
      resolve_enabled_category cfg category =
        (((category :: CATEGORY_FALLBACKS category).find?
            (category_enabled cfg)).getD "")) ∧
    (∀ (cfg : Config) (category : String) pick play running state now,
      (∀ c ∈ category :: CATEGORY_FALLBACKS category, category_enabled cfg c = false) →
      maybe_play_category pick play running cfg state category now = (state, false)) ∧
    (resolve_enabled_category
      { cfg_base with categories := some [("greeting", false), ("acknowledge", false), ("complete", true)] }
      "acknowledge" = "complete") := by
  refine ⟨fun cfg category => first_enabled_eq_find cfg _, ?_, by decide⟩
  intro cfg category pick play running state now hall
  have hfind : (category :: CATEGORY_FALLBACKS category).find?
      (category_enabled cfg) = none := by
    rw [List.find?_eq_none]
    intro c hc
    simp [hall c hc]
  have hres : resolve_enabled_category cfg category = "" := by
    rw [resolve_enabled_category, first_enabled_eq_find, hfind]
    rfl
  simp [maybe_play_category, hres]

theorem category_resolution_witness :
    maybe_play_category pick_fixed (some 7) (fun _ => false)
      { cfg_base with categories := some [("acknowledge", false), ("complete", false)] }
      DEFAULT_STATE "acknowledge" 5 = (DEFAULT_STATE, false) :=
  category_resolution_spec.2.1
    { cfg_base with categories := some [("acknowledge", false), ("complete", false)] }
    "acknowledge" pick_fixed (some 7) (fun _ => false) DEFAULT_STATE 5 (by decide)

/-- C5: the greeting-eligibility check returns true exactly when the thread
key was absent from the seen threads (in which case it is added) or the idle
gap holds (`now - lastEventTimestamp` at least the clamped idle threshold, or
unconditionally when no positive prior event timestamp is recorded); the last
event timestamp is set to `now` on every call regardless of the result. -/
theorem greeting_eligibility_spec (state : State) (key : String) (now idle : ℤ) :
    ((should_play_greeting state key now idle).2 = true ↔
      (key ∉ state.seen_threads ∨ state.last_event_ts ≤ 0 ∨
       now - state.last_event_ts ≥ max 1 idle)) ∧
    (should_play_greeting state key now idle).1.last_event_ts = now ∧
    (key ∉ state.seen_threads →
      key ∈ (should_play_greeting state key now idle).1.seen_threads) ∧
    (key ∈ state.seen_threads →
      (should_play_greeting state key now idle).1.seen_threads = state.seen_threads) := by
  have hc : state.seen_threads.contains key = decide (key ∈ state.seen_threads) := by
    by_cases hk : key ∈ state.seen_threads
    · simp [hk, List.elem_iff.mpr hk]
    · simp only [hk, decide_False]
      simpa [List.elem_iff] using hk
  refine ⟨?_, ?_, ?_, ?_⟩
  · simp only [should_play_greeting, hc]
    by_cases hk : key ∈ state.seen_threads <;>
      by_cases h2 : state.last_event_ts > 0 <;>
        (simp [hk, h2]; try omega)
  · simp [should_play_greeting]
  · intro hk
    simp only [should_play_greeting, hc]
    simp [hk]
    exact mem_takeLast_append (by omega) key state.seen_threads
  · intro hk
    simp only [should_play_greeting, hc]
    simp [hk]

theorem greeting_eligibility_witness :
    ((should_play_greeting DEFAULT_STATE "t1" 10 120).2 = true ↔
      ("t1" ∉ DEFAULT_STATE.seen_threads ∨ DEFAULT_STATE.last_event_ts ≤ 0 ∨
       (10:ℤ) - DEFAULT_STATE.last_event_ts ≥ max 1 120)) ∧
    (should_play_greeting DEFAULT_STATE "t1" 10 120).1.last_event_ts = 10 ∧
    "t1" ∈ (should_play_greeting DEFAULT_STATE "t1" 10 120).1.seen_threads :=
  ⟨(greeting_eligibility_spec DEFAULT_STATE "t1" 10 120).1,
   (greeting_eligibility_spec DEFAULT_STATE "t1" 10 120).2.1,
   (greeting_eligibility_spec DEFAULT_STATE "t1" 10 120).2.2.1 (by decide)⟩

/-- C6: the classifier lower-cases the text, scans the fixed priority order
[resource_limit, permission, error] and returns the first category with a
matching keyword (keyword matching being substring containment of the
lower-cased term in the lower-cased text); it returns "acknowledge" when
nothing matches or the input is empty (a non-string input is passed in as the
empty text by the dispatcher); it always returns one of the seven fixed
categories; and it is insensitive to the case of both text and keywords.
Being a function of its arguments, it is pure and deterministic. -/
theorem classifier_spec :
    (∀ (message : List Char) (cfg : Config),
      infer_category message cfg ∈ PREVIEW_CATEGORIES) ∧
    (∀ (needle haystack : List Char),
      isSubstr needle haystack = true ↔ needle <:+: haystack) ∧
    (∀ (message : List Char) (cfg : Config),
      (keyword_match cfg (lowerChars message) "resource_limit" = true →
        infer_category message cfg = "resource_limit") ∧
      (keyword_match cfg (lowerChars message) "resource_limit" = false →
       keyword_match cfg (lowerChars message) "permission" = true →
        infer_category message cfg = "permission") ∧
      (keyword_match cfg (lowerChars message) "resource_limit" = false →
       keyword_match cfg (lowerChars message) "permission" = false →
       keyword_match cfg (lowerChars message) "error" = true →
        infer_category message cfg = "error") ∧
      (keyword_match cfg (lowerChars message) "resource_limit" = false →
       keyword_match cfg (lowerChars message) "permission" = false →
       keyword_match cfg (lowerChars message) "error" = false →
        infer_category message cfg = "acknowledge")) ∧
    (∀ cfg : Config, infer_category [] cfg = "acknowledge") ∧
    (∀ (m1 m2 : List Char) (cfg : Config), lowerChars m1 = lowerChars m2 →
      infer_category m1 cfg = infer_category m2 cfg) ∧
    (∀ (message : List Char) (cfg1 cfg2 : Config),
      (∀ c ∈ CATEGORY_PRIORITY,
        (List.lookup c cfg1.keywords).map (List.map lowerChars) =
        (List.lookup c cfg2.keywords).map (List.map lowerChars)) →
      infer_category message cfg1 = infer_category message cfg2) := by
  refine ⟨?_, isSubstr_iff_infix, ?_, ?_, ?_, ?_⟩
  · intro message cfg
    simp only [infer_category]
    cases hf : CATEGORY_PRIORITY.find? (keyword_match cfg (lowerChars message)) with
    | none => decide
    | some c =>
      have hm := List.mem_of_find?_eq_some hf
      simp only [CATEGORY_PRIORITY, List.mem_cons, List.not_mem_nil, or_false] at hm
      rcases hm with rfl | rfl | rfl <;> decide
  · intro message cfg
    refine ⟨?_, ?_, ?_, ?_⟩ <;> intros <;>
      simp only [infer_category, CATEGORY_PRIORITY, List.find?, *]
  · intro cfg
    have h := keyword_match_empty_text cfg
    simp only [infer_category, lowerChars, List.map_nil, CATEGORY_PRIORITY, List.find?, h]
  · intro m1 m2 cfg h
    simp only [infer_category]
    rw [h]
  · intro message cfg1 cfg2 h
    have e1 := keyword_match_lower_congr cfg1 cfg2 (lowerChars message) "resource_limit"
      (h _ (by decide))
    have e2 := keyword_match_lower_congr cfg1 cfg2 (lowerChars message) "permission"
      (h _ (by decide))
    have e3 := keyword_match_lower_congr cfg1 cfg2 (lowerChars message) "error"
      (h _ (by decide))
    simp only [infer_category, CATEGORY_PRIORITY, List.find?, e1, e2, e3]

theorem classifier_witness :
    infer_category ("It FAILED".data)
      { cfg_base with keywords := [("error", ["failed".data])] } = "error" :=
  (classifier_spec.2.2.1 ("It FAILED".data)
      { cfg_base with keywords := [("error", ["failed".data])] }).2.2.1
    (by decide) (by decide) (by decide)

/-- C7: with overlap prevention on, a recorded playback pid that the liveness
probe reports as still running makes the admission policy abort with no state
change (so no new playback starts while the previous one is presumed alive),
while a stale pid (absent, non-positive, or not running) is cleared to none
and the overlap gate lets admission proceed. -/
theorem overlap_prevention_spec :
    (∀ pick play (running : Int → Bool) (cfg : Config) (state : State)
        (category : String) (now : ℤ),
      cfg.prevent_overlap = true →
      is_pid_running running state.playback_pid = true →
      maybe_play_category pick play running cfg state category now = (state, false)) ∧
    (∀ (running : Int → Bool) (cfg : Config) (state : State),
      cfg.prevent_overlap = true →
      is_pid_running running state.playback_pid = false →
      overlap_blocked running cfg state = ({ state with playback_pid := none }, false)) := by
  constructor
  · intro pick play running cfg state category now hpo hrun
    have hob : overlap_blocked running cfg state = (state, true) := by
      simp [overlap_blocked, hpo, hrun]
    simp only [maybe_play_category, hob]
    split_ifs <;> rfl
  · intro running cfg state hpo hrun
    simp [overlap_blocked, hpo, hrun]

theorem overlap_prevention_witness :
    maybe_play_category pick_fixed (some 7) (fun p => decide (p = 42)) cfg_base
      { DEFAULT_STATE with playback_pid := some 42 } "acknowledge" 5 =
      ({ DEFAULT_STATE with playback_pid := some 42 }, false) ∧
    overlap_blocked (fun p => decide (p = 42)) cfg_base
      { DEFAULT_STATE with playback_pid := some 99 } =
      ({ { DEFAULT_STATE with playback_pid := some 99 } with playback_pid := none }, false) :=
  ⟨overlap_prevention_spec.1 pick_fixed (some 7) (fun p => decide (p = 42)) cfg_base
      { DEFAULT_STATE with playback_pid := some 42 } "acknowledge" 5 rfl (by decide),
   overlap_prevention_spec.2 (fun p => decide (p = 42)) cfg_base
      { DEFAULT_STATE with playback_pid := some 99 } rfl (by decide)⟩

/-- C8: once an event passes resolution, cooldown and overlap and the picker
selects a sound, the admission policy records the outcome the same way for
every player result `play` — including `none`, the no-backend case: it stamps
the used category's last-played timestamp with `now`, stores `play` as the
playback pid, and reports the event as played. -/
theorem playback_recording_spec
    (pick : Config → State → String → List (String × String) × Option String × String)
    (play : Option Int) (running : Int → Bool)
    (cfg : Config) (state : State) (category : String) (now : ℤ)
    (lp : List (String × String)) (sound used : String)
    (hres : resolve_enabled_category cfg category ≠ "")
    (hcd : is_on_category_cooldown cfg state (resolve_enabled_category cfg category) now = false)
    (hob : (overlap_blocked running cfg state).2 = false)
    (hpick : pick cfg (overlap_blocked running cfg state).1
        (resolve_enabled_category cfg category) = (lp, some sound, used)) :
    maybe_play_category pick play running cfg state category now =
      ({ (overlap_blocked running cfg state).1 with
          last_played := lp,
          last_category_ts :=
            updateAssoc used now (overlap_blocked running cfg state).1.last_category_ts,
          playback_pid := play }, true) := by
  simp only [maybe_play_category, hcd, hob, hpick]
  simp [hres]

theorem playback_recording_witness :
    maybe_play_category pick_fixed none (fun _ => false) cfg_base DEFAULT_STATE
      "acknowledge" 5 =
      ({ (overlap_blocked (fun _ => false) cfg_base DEFAULT_STATE).1 with
          last_played := [],
          last_category_ts := updateAssoc "acknowledge" 5
            (overlap_blocked (fun _ => false) cfg_base DEFAULT_STATE).1.last_category_ts,
          playback_pid := none }, true) :=
  playback_recording_spec pick_fixed none (fun _ => false) cfg_base DEFAULT_STATE
    "acknowledge" 5 [] "s.wav" "acknowledge" (by decide) (by decide) (by decide) (by decide)

/-- C9: the boundedness invariant — at most 256 seen threads, at most 32
timestamps per thread — holds for the initial state, is preserved by every
event-processing step, and therefore holds after any number of processed
events; and truncation keeps a suffix of the untruncated list, i.e. drops the
oldest entries first, for both bounded collections. -/
theorem bounded_state_spec :
    StateBounded DEFAULT_STATE ∧
    (∀ pick play (running : Int → Bool) (cfg : Config) (payload : Payload)
        (now : ℤ) (s : State), StateBounded s →
      StateBounded (handle_event pick play running cfg s payload now).1) ∧
    (∀ pick play (running : Int → Bool) (cfg : Config) (events : List (Payload × ℤ)),
      StateBounded (events.foldl
        (fun s e => (handle_event pick play running cfg s e.1 e.2).1) DEFAULT_STATE)) ∧
    (∀ (state : State) (key : String) (now window : ℤ) (l : List ℤ),
      List.lookup key (track_rapid_turns state key now window).1.turn_timestamps = some l →
      l <:+ ((((List.lookup key state.turn_timestamps).getD []).filter
        (fun t => decide (now - t ≤ max 1 window))) ++ [now])) ∧
    (∀ (state : State) (key : String) (now idle : ℤ),
      (should_play_greeting state key now idle).1.seen_threads = state.seen_threads ∨
      (should_play_greeting state key now idle).1.seen_threads <:+
        (state.seen_threads ++ [key])) := by
  refine ⟨default_state_bounded, handle_event_bounded, ?_, ?_, ?_⟩
  · intro pick play running cfg events
    suffices h : ∀ s : State, StateBounded s →
        StateBounded (events.foldl
          (fun s e => (handle_event pick play running cfg s e.1 e.2).1) s) from
      h DEFAULT_STATE default_state_bounded
    induction events with
    | nil => intro s hs; simpa using hs
    | cons e rest ih =>
      intro s hs
      simp only [List.foldl_cons]
      exact ih _ (handle_event_bounded _ _ _ _ _ _ _ hs)
  · intro state key now window l hl
    simp only [track_rapid_turns] at hl
    rw [lookup_updateAssoc_self] at hl
    cases hl
    exact takeLast_suffix _ _
  · intro state key now idle
    simp only [should_play_greeting]
    by_cases hk : key ∈ state.seen_threads
    · left; simp [hk]
    · right; simp [hk]
      exact takeLast_suffix 256 (state.seen_threads ++ [key])

theorem bounded_state_witness :
    StateBounded (handle_event pick_fixed (some 7) (fun _ => false) cfg_base
      DEFAULT_STATE ⟨none, none⟩ 10).1 ∧
    ([(10:ℤ)] <:+ ((((List.lookup "k" DEFAULT_STATE.turn_timestamps).getD []).filter
        (fun t => decide ((10:ℤ) - t ≤ max 1 10))) ++ [(10:ℤ)])) :=
  ⟨bounded_state_spec.2.1 pick_fixed (some 7) (fun _ => false) cfg_base ⟨none, none⟩ 10
      DEFAULT_STATE bounded_state_spec.1,
   bounded_state_spec.2.2.2.1 DEFAULT_STATE "k" 10 10 [(10:ℤ)] (by decide)⟩

end CodexPeon
